import Mathlib

/-!
Verification of the ebook-image-extractor core against its design
specification.

The definitions below are a shallow embedding of the Python sources
(src/image_analysis.py, src/base_extractor.py, src/epub_extractor.py,
src/mobi_extractor.py).  Byte strings are modelled as List Nat, Python
dicts used as optional headers as Option of a structure, and Python
exceptions as an Except monad.  Heterogeneous Python comparisons that
raise TypeError (relevant for the MOBI constructor, which forwards its
arguments positionally into min_width and min_height of the base class)
are modelled by a small PyIntLike value type.
-/

namespace EbookIE

/-! ## Byte-buffer helpers (Python bytes, slicing, struct.unpack) -/

/-- Read byte i of a buffer, 0 when out of range (all call sites in the
source pre-check ranges before reading). -/
def getB (data : List Nat) (i : Nat) : Nat := data.getD i 0

/-- Python slice data[a:b]. -/
def byteSlice (data : List Nat) (a b : Nat) : List Nat := (data.take b).drop a

/-- struct.unpack big-endian u16 at offset i. -/
def be16 (data : List Nat) (i : Nat) : Nat := 256 * getB data i + getB data (i + 1)

/-- struct.unpack big-endian u32 at offset i. -/
def be32 (data : List Nat) (i : Nat) : Nat :=
  16777216 * getB data i + 65536 * getB data (i + 1) + 256 * getB data (i + 2) + getB data (i + 3)

/-- struct.unpack little-endian u16 at offset i. -/
def le16 (data : List Nat) (i : Nat) : Nat := getB data i + 256 * getB data (i + 1)

/-- struct.unpack little-endian u32 at offset i. -/
def le32 (data : List Nat) (i : Nat) : Nat :=
  getB data i + 256 * getB data (i + 1) + 65536 * getB data (i + 2) + 16777216 * getB data (i + 3)

/-- int.from_bytes(data[i:i+3], "little"). -/
def le24 (data : List Nat) (i : Nat) : Nat :=
  getB data i + 256 * getB data (i + 1) + 65536 * getB data (i + 2)

/-- Python bytes.startswith. -/
def bytesStartWith (data sig : List Nat) : Bool := sig.isPrefixOf data

/-- Python substring containment (needle in hay). -/
def containsSub (hay needle : List Nat) : Bool :=
  (List.range (hay.length + 1)).any (fun i => needle.isPrefixOf (hay.drop i))

/-! ## Python exceptions and int-like values -/

/-- The Python exceptions the embedded code can raise. -/
inductive PyExn
  | typeError
  | indexError
  | ioError
deriving DecidableEq, Repr

deriving instance DecidableEq for Except

/-- A Python value sitting in an int-typed comparison slot.  The MOBI
constructor bug stores a bool in min_width and None or a logging.Logger
in min_height, so comparisons against those fields must be modelled. -/
inductive PyIntLike
  | int (n : Int)
  | bool (b : Bool)
  | pynone
  | pylogger
deriving DecidableEq, Repr

/-- Python (v > 0): bools compare as 0 or 1, None and Logger raise TypeError. -/
def pyGtZero : PyIntLike → Except PyExn Bool
  | .int n => .ok (decide (0 < n))
  | .bool b => .ok b
  | .pynone => .error .typeError
  | .pylogger => .error .typeError

/-- Python (w < v) for a natural w: bools compare as 0 or 1, None and
Logger raise TypeError. -/
def pyLtNat (w : Nat) : PyIntLike → Except PyExn Bool
  | .int n => .ok (decide ((w : Int) < n))
  | .bool b => .ok (decide ((w : Int) < (if b then 1 else 0)))
  | .pynone => .error .typeError
  | .pylogger => .error .typeError

/-! ## image_analysis.py -/

/-- Computed metrics for a binary image payload (ImageMetrics dataclass). -/
structure ImageMetrics where
  size_bytes : Nat
  width : Nat
  height : Nat
  extension : String
  mime_type : String
deriving DecidableEq, Repr

/-- Width over height ratio, 0 when height is 0 (ImageMetrics.aspect_ratio). -/
def ImageMetrics.aspect_ratio (m : ImageMetrics) : ℚ :=
  if m.height ≤ 0 then 0 else (m.width : ℚ) / (m.height : ℚ)

def pngSignature : List Nat := [0x89, 0x50, 0x4E, 0x47, 0x0D, 0x0A, 0x1A, 0x0A]

def gif87Signature : List Nat := [0x47, 0x49, 0x46, 0x38, 0x37, 0x61]

def gif89Signature : List Nat := [0x47, 0x49, 0x46, 0x38, 0x39, 0x61]

/-- detect extension from signature bytes (image_analysis.py). -/
def detectExtension (data : List Nat) : String :=
  if bytesStartWith data [0xFF, 0xD8, 0xFF] then ".jpg"
  else if bytesStartWith data pngSignature then ".png"
  else if bytesStartWith data gif87Signature || bytesStartWith data gif89Signature then ".gif"
  else if bytesStartWith data [0x42, 0x4D] then ".bmp"
  else if 12 < data.length ∧ byteSlice data 8 12 = [0x57, 0x45, 0x42, 0x50] then ".webp"
  else if bytesStartWith data [0x3C, 0x73, 0x76, 0x67]
       || containsSub (data.take 512) [0x3C, 0x73, 0x76, 0x67] then ".svg"
  else ".jpg"

/-- map extension to MIME type (image_analysis.py). -/
def mimeForExtension (extension : String) : String :=
  if extension = ".jpg" then "image/jpeg"
  else if extension = ".jpeg" then "image/jpeg"
  else if extension = ".png" then "image/png"
  else if extension = ".gif" then "image/gif"
  else if extension = ".bmp" then "image/bmp"
  else if extension = ".webp" then "image/webp"
  else if extension = ".svg" then "image/svg+xml"
  else "application/octet-stream"

/-- PNG dimension parse (image_analysis.py). -/
def parsePngDimensions (data : List Nat) : Option (Nat × Nat) :=
  if data.length < 24 then none
  else if ¬ bytesStartWith data pngSignature then none
  else some (be32 data 16, be32 data 20)

/-- GIF dimension parse (image_analysis.py). -/
def parseGifDimensions (data : List Nat) : Option (Nat × Nat) :=
  if data.length < 10 then none
  else if ¬ (bytesStartWith data gif87Signature || bytesStartWith data gif89Signature) then none
  else some (le16 data 6, le16 data 8)

/-- BMP dimension parse (image_analysis.py). -/
def parseBmpDimensions (data : List Nat) : Option (Nat × Nat) :=
  if data.length < 26 then none
  else if ¬ bytesStartWith data [0x42, 0x4D] then none
  else some (le32 data 18, le32 data 22)

/-- WEBP dimension parse (image_analysis.py). -/
def parseWebpDimensions (data : List Nat) : Option (Nat × Nat) :=
  if data.length < 30 then none
  else if ¬ (bytesStartWith data [0x52, 0x49, 0x46, 0x46]
             ∧ byteSlice data 8 12 = [0x57, 0x45, 0x42, 0x50]) then none
  else if byteSlice data 12 16 = [0x56, 0x50, 0x38, 0x58] ∧ 30 ≤ data.length then
    some (1 + le24 data 24, 1 + le24 data 27)
  else if byteSlice data 12 16 = [0x56, 0x50, 0x38, 0x4C] ∧ 25 ≤ data.length then
    let b0 := getB data 21
    let b1 := getB data 22
    let b2 := getB data 23
    let b3 := getB data 24
    some (1 + (((b1 &&& 0x3F) <<< 8) ||| b0),
          1 + (((b3 &&& 0x0F) <<< 10) ||| (b2 <<< 2) ||| ((b1 &&& 0xC0) >>> 6)))
  else none

def jpegSOFMarkers : List Nat :=
  [0xC0, 0xC1, 0xC2, 0xC3, 0xC5, 0xC6, 0xC7, 0xC9, 0xCA, 0xCB, 0xCD, 0xCE, 0xCF]

/-- The JPEG marker-segment walk of image_analysis.py, written with a
fuel parameter so that the recursion is structural; every iteration of
the source's while loop strictly advances the index, so fuel equal to
the buffer length is always sufficient. -/
def jpegWalk (data : List Nat) : Nat → Nat → Option (Nat × Nat)
  | 0, _ => none
  | fuel + 1, i =>
    if i + 9 < data.length then
      if getB data i ≠ 0xFF then jpegWalk data fuel (i + 1)
      else
        let marker := getB data (i + 1)
        if marker = 0xD8 ∨ marker = 0xD9 then jpegWalk data fuel (i + 2)
        else if data.length < i + 2 + 2 then none
        else
          let segLen := be16 data (i + 2)
          if segLen < 2 ∨ data.length < i + 2 + segLen then none
          else if marker ∈ jpegSOFMarkers then
            if i + 2 + 7 ≤ data.length then some (be16 data (i + 2 + 5), be16 data (i + 2 + 3))
            else none
          else jpegWalk data fuel (i + 2 + segLen)
    else none

/-- JPEG dimension parse (image_analysis.py). -/
def parseJpegDimensions (data : List Nat) : Option (Nat × Nat) :=
  if data.length < 4 ∨ ¬ bytesStartWith data [0xFF, 0xD8] then none
  else jpegWalk data data.length 2

/-- parse_image_metrics of image_analysis.py: first successful parser in
the PNG, GIF, BMP, WEBP, JPEG chain supplies the dimensions. -/
def parse_image_metrics (data : List Nat) : ImageMetrics :=
  let extension := detectExtension data
  let parsed := (((parsePngDimensions data).or (parseGifDimensions data)).or
      ((parseBmpDimensions data).or (parseWebpDimensions data))).or (parseJpegDimensions data)
  let wh := parsed.getD (0, 0)
  { size_bytes := data.length
    width := wh.1
    height := wh.2
    extension := extension
    mime_type := mimeForExtension extension }

/-- classify_image of image_analysis.py, literal translation of the
nested conditionals. -/
def classify_image (m : ImageMetrics) (is_cover : Bool) : String :=
  if is_cover then "cover"
  else if 0 < m.width ∧ 0 < m.height then
    if m.width ≤ 140 ∨ m.height ≤ 140 then "thumbnail"
    else if 4 ≤ m.aspect_ratio ∨ m.aspect_ratio ≤ (1 : ℚ) / 4 then "decoration"
    else if m.size_bytes < 4096 then "decoration"
    else "page"
  else if m.size_bytes < 4096 then "decoration"
  else "page"

/-- Classification rules exactly as the specification states them for an
image whose two dimensions are known: thumbnail when either dimension is
at most 140, else decoration on extreme aspect ratio, else decoration on
byte size below 4096, else page. -/
def classifySpecKnownDims (m : ImageMetrics) : String :=
  if m.width ≤ 140 ∨ m.height ≤ 140 then "thumbnail"
  else if 4 ≤ m.aspect_ratio ∨ m.aspect_ratio ≤ (1 : ℚ) / 4 then "decoration"
  else if m.size_bytes < 4096 then "decoration"
  else "page"

/-! ## base_extractor.py -/

/-- Per-book extraction statistics (ExtractionStats dataclass). -/
structure ExtractionStats where
  saved : Nat
  ignored : Nat
  missing : Nat
  duplicates : Nat
  filtered_by_size : Nat
  filtered_by_dimensions : Nat
  filtered_by_aspect_ratio : Nat
deriving DecidableEq, Repr

/-- Fresh statistics, all counters zero. -/
def ExtractionStats.init : ExtractionStats := ⟨0, 0, 0, 0, 0, 0, 0⟩

/-- The static filter configuration carried by a BaseExtractor instance.
The min_width and min_height slots are PyIntLike because the MOBI
subclass constructor stores a bool and a None or Logger there. -/
structure SkipCfg where
  ignored_hashes : List String
  min_image_size : Int
  min_width : PyIntLike
  min_height : PyIntLike
  max_aspect_ratio : ℚ
  enable_deduplication : Bool
deriving DecidableEq, Repr

/-- Mutable per-run state: the in-run extracted-hash set and, when a
persistent cache is configured, its in-memory view. -/
structure RunState where
  extracted : List String
  cache : Option (List String)
deriving DecidableEq, Repr

/-- Fresh per-book state with no persistent cache (the state after
reset_extraction_state on an extractor without hash_cache). -/
def RunState.init : RunState := ⟨[], none⟩

/-- BaseExtractor.should_skip_image, literal translation.  The cache
argument is the in-memory view of the persistent hash cache (None when
no cache is configured) and extracted is the in-run duplicate set; the
image hash is passed by both extractor loops, so the hashing fallback
branch of the source is never taken and is not modelled. -/
def should_skip_image (cfg : SkipCfg) (cache : Option (List String))
    (extracted : List String) (dataLen : Nat) (imgHash : String)
    (m : ImageMetrics) : Except PyExn (Bool × String) :=
  if 0 < cfg.min_image_size ∧ (dataLen : Int) < cfg.min_image_size then .ok (true, "too_small")
  else
    match pyGtZero cfg.min_width with
    | .error e => .error e
    | .ok wPos =>
      match (if wPos ∧ 0 < m.width then pyLtNat m.width cfg.min_width else .ok false) with
      | .error e => .error e
      | .ok wSkip =>
        if wSkip then .ok (true, "too_narrow")
        else
          match pyGtZero cfg.min_height with
          | .error e => .error e
          | .ok hPos =>
            match (if hPos ∧ 0 < m.height then pyLtNat m.height cfg.min_height else .ok false) with
            | .error e => .error e
            | .ok hSkip =>
              if hSkip then .ok (true, "too_short")
              else if 0 < cfg.max_aspect_ratio ∧ 0 < m.aspect_ratio
                       ∧ cfg.max_aspect_ratio < m.aspect_ratio then
                .ok (true, "extreme_aspect_ratio")
              else if (match cache with
                       | some c => decide (imgHash ∈ c)
                       | none => false) then
                .ok (true, "duplicate_cache")
              else if imgHash ∈ cfg.ignored_hashes then .ok (true, "ignored_hash")
              else if cfg.enable_deduplication ∧ imgHash ∈ extracted then .ok (true, "duplicate")
              else .ok (false, "")

/-- The hash bookkeeping of BaseExtractor.save_image: the image hash is
added to the in-run set and, when a persistent cache is configured, to
its in-memory view. -/
def saveImageHashes (s : RunState) (h : String) : RunState :=
  { extracted := s.extracted ++ [h], cache := s.cache.map (fun c => c ++ [h]) }

/-- Distinct elements of a list in first-occurrence order; the length of
the result models Python len(set(l)). -/
def distinctList {α : Type} [DecidableEq α] (l : List α) : List α :=
  l.foldl (fun acc x => if x ∈ acc then acc else acc ++ [x]) []

/-! ### Checklist rendering of should_skip (from the specification text)

The specification describes should_skip as a fixed priority list of
checks evaluated in order, stopping at the first match: size floor,
width floor, height floor, aspect-ratio ceiling, persistent-cache
membership, ignore-hash membership, in-run duplicate membership. -/

/-- The ordered check list of the specification, for an instance whose
min_width and min_height are the integers mw and mh. -/
def skipCheckList (cfg : SkipCfg) (cache : Option (List String))
    (extracted : List String) (mw mh : Int) (dataLen : Nat) (imgHash : String)
    (m : ImageMetrics) : List (Option String) :=
  [ if 0 < cfg.min_image_size ∧ (dataLen : Int) < cfg.min_image_size then some "too_small" else none,
    if 0 < mw ∧ 0 < m.width ∧ (m.width : Int) < mw then some "too_narrow" else none,
    if 0 < mh ∧ 0 < m.height ∧ (m.height : Int) < mh then some "too_short" else none,
    if 0 < cfg.max_aspect_ratio ∧ 0 < m.aspect_ratio
       ∧ cfg.max_aspect_ratio < m.aspect_ratio then some "extreme_aspect_ratio" else none,
    if (match cache with
        | some c => decide (imgHash ∈ c)
        | none => false) then some "duplicate_cache" else none,
    if imgHash ∈ cfg.ignored_hashes then some "ignored_hash" else none,
    if cfg.enable_deduplication ∧ imgHash ∈ extracted then some "duplicate" else none ]

/-- First firing check of an ordered check list, as a skip decision. -/
def firstMatch : List (Option String) → Bool × String
  | [] => (false, "")
  | some r :: _ => (true, r)
  | none :: rest => firstMatch rest

/-! ## epub_extractor.py -/

/-- ASCII lower-casing of one character (str.lower on the paths the
extractor sees). -/
def asciiLower (c : Char) : Char :=
  if 'A' ≤ c ∧ c ≤ 'Z' then Char.ofNat (c.toNat + 32) else c

/-- ASCII str.lower. -/
def lowerStr (s : String) : String := String.mk (s.data.map asciiLower)

/-- Index of the last occurrence of a character in a list, if any. -/
def lastIndexOfChar (c : Char) (l : List Char) : Option Nat :=
  ((l.enum.filter (fun p => p.2 = c)).map (fun p => p.1)).getLast?

/-- Extension part of os.path.splitext (with the leading dot), following
the CPython algorithm: the extension starts at the last dot that lies
after the last path separator, provided the basename does not consist
solely of leading dots up to that point. -/
def splitextExt (s : String) : String :=
  let l := s.data
  let sep : Int := (lastIndexOfChar '/' l).elim (-1) (fun n => (n : Int))
  let dot : Int := (lastIndexOfChar '.' l).elim (-1) (fun n => (n : Int))
  if sep < dot ∧ (List.range l.length).any
      (fun k => decide (sep < (k : Int) ∧ (k : Int) < dot ∧ l.getD k '.' ≠ '.')) then
    String.mk (l.drop dot.toNat)
  else ""

/-- The EPUBImageExtractor.IMAGE_EXTENSIONS set. -/
def epubImageExtensions : List String :=
  [".jpg", ".jpeg", ".png", ".webp", ".gif", ".bmp", ".svg"]

/-- Archive-entry fallback of EPUBImageExtractor.extract_images: when
the HTML-reference pass produced no accepted image paths, every archive
entry whose (lower-cased) extension is a known image extension is used,
in archive-listing order. -/
def epubSelectImagePaths (imagePaths allFiles : List String) : List String :=
  if imagePaths.isEmpty then
    allFiles.filter (fun f => lowerStr (splitextExt f) ∈ epubImageExtensions)
  else imagePaths

/-- The rejection-reason dispatch of the EPUB extract_images loop: each
reason string maps to one statistics counter. -/
def epubApplyRejection (s : ExtractionStats) (reason : String) : ExtractionStats :=
  if reason = "ignored_hash" then { s with ignored := s.ignored + 1 }
  else if reason = "duplicate" ∨ reason = "duplicate_cache" then
    { s with duplicates := s.duplicates + 1 }
  else if reason = "too_small" then { s with filtered_by_size := s.filtered_by_size + 1 }
  else if reason = "too_narrow" ∨ reason = "too_short" then
    { s with filtered_by_dimensions := s.filtered_by_dimensions + 1 }
  else if reason = "extreme_aspect_ratio" then
    { s with filtered_by_aspect_ratio := s.filtered_by_aspect_ratio + 1 }
  else s

/-- One archive image entry as the EPUB per-image loop sees it: its
archive path, the outcome of zipf.read (None models a raised exception),
and whether writing the image to disk would raise an I/O error. -/
structure EpubItem where
  path : String
  readData : Option (List Nat)
  saveFails : Bool
deriving DecidableEq, Repr

/-- Result of the body of the per-image try block in the EPUB loop. -/
inductive EpubOutcome
  | skipped (reason : String)
  | savedImg (hash : String)
deriving DecidableEq, Repr

/-- The body of the per-image try block of EPUBImageExtractor
.extract_images: read the entry, compute metrics and hash, consult
should_skip_image, then save.  Any of these steps may raise. -/
def epubProcessOne (cfg : SkipCfg) (hashFn : List Nat → String) (s : RunState)
    (it : EpubItem) : Except PyExn EpubOutcome :=
  match it.readData with
  | none => .error .ioError
  | some data =>
    let m := parse_image_metrics data
    let h := hashFn data
    match should_skip_image cfg s.cache s.extracted data.length h m with
    | .error e => .error e
    | .ok (true, reason) => .ok (.skipped reason)
    | .ok (false, _) => if it.saveFails then .error .ioError else .ok (.savedImg h)

/-- The per-image loop of EPUBImageExtractor.extract_images: each
image is processed inside a try block; an exception appends the path to
the missing list and processing continues with the next image. -/
def epubLoop (cfg : SkipCfg) (hashFn : List Nat → String) :
    List EpubItem → RunState → ExtractionStats → List String →
    ExtractionStats × RunState × List String
  | [], s, stats, miss => (stats, s, miss)
  | it :: rest, s, stats, miss =>
    match epubProcessOne cfg hashFn s it with
    | .error _ => epubLoop cfg hashFn rest s stats (miss ++ [it.path])
    | .ok (.skipped r) => epubLoop cfg hashFn rest s (epubApplyRejection stats r) miss
    | .ok (.savedImg h) =>
      epubLoop cfg hashFn rest (saveImageHashes s h) { stats with saved := stats.saved + 1 } miss

/-- EPUB extract_images after image-path selection: run the loop from
fresh statistics, starting the missing list from the unresolved
references of the HTML pass, then overwrite the missing counter with the
number of distinct missing paths. -/
def epubExtractLoopResult (cfg : SkipCfg) (hashFn : List Nat → String)
    (items : List EpubItem) (missing0 : List String) (s0 : RunState) :
    ExtractionStats × RunState :=
  let r := epubLoop cfg hashFn items s0 ExtractionStats.init missing0
  ({ r.1 with missing := (distinctList r.2.2).length }, r.2.1)

/-! ## mobi_extractor.py -/

/-- MobiImageExtractor._is_image_data: raster signature sniffing. -/
def isImageData (data : List Nat) : Bool :=
  if data.length < 8 then false
  else if bytesStartWith data [0xFF, 0xD8, 0xFF] then true
  else if bytesStartWith data pngSignature then true
  else if bytesStartWith data gif87Signature || bytesStartWith data gif89Signature then true
  else if bytesStartWith data [0x42, 0x4D] && decide (14 < data.length) then true
  else if decide (12 < data.length) && decide (byteSlice data 8 12 = [0x57, 0x45, 0x42, 0x50]) then true
  else false

/-- MobiImageExtractor._get_image_extension. -/
def getImageExtension (data : List Nat) : String :=
  if bytesStartWith data [0xFF, 0xD8, 0xFF] then ".jpg"
  else if bytesStartWith data [0x89, 0x50, 0x4E, 0x47] then ".png"
  else if bytesStartWith data [0x47, 0x49, 0x46, 0x38] then ".gif"
  else if bytesStartWith data [0x42, 0x4D] then ".bmp"
  else if 12 < data.length ∧ byteSlice data 8 12 = [0x57, 0x45, 0x42, 0x50] then ".webp"
  else ".jpg"

/-- MobiImageExtractor._read_pdb_records: the number of records is read
from the 78-byte PDB header, each table entry contributes a 4-byte
big-endian offset when it lies inside the buffer, and record i spans
from its own offset to the next offset (the last record ends at the file
length); entries with start at or after end, or start at or after the
buffer length, are dropped. -/
def readPdbRecords (data : List Nat) : List (Nat × Nat) :=
  if data.length < 78 then []
  else
    let numRecords := be16 data 76
    let offs := (List.range numRecords).filterMap (fun i =>
      let pos := 78 + 8 * i
      if pos + 4 ≤ data.length then some (be32 data pos) else none)
    (List.range offs.length).filterMap (fun i =>
      let s := offs.getD i 0
      let e := if i + 1 < offs.length then offs.getD (i + 1) 0 else data.length
      if s < e ∧ s < data.length then some (s, e) else none)

/-- Decoded PalmDoc header fields (MobiImageExtractor._read_palmdoc_header);
None models the empty dict returned for a short buffer. -/
structure PalmdocHeader where
  compression : Nat
  text_length : Nat
  record_count : Nat
  record_size : Nat
  encryption_type : Nat
deriving DecidableEq, Repr

def readPalmdocHeader (data : List Nat) (record0Start : Nat) : Option PalmdocHeader :=
  if data.length < record0Start + 16 then none
  else some
    { compression := be16 data record0Start
      text_length := be32 data (record0Start + 4)
      record_count := be16 data (record0Start + 8)
      record_size := be16 data (record0Start + 10)
      encryption_type := be16 data (record0Start + 12) }

/-- Decoded MOBI header fields (MobiImageExtractor._read_mobi_header);
None models the empty dict returned on a short buffer or a missing MOBI
magic tag.  The exth_flags field is only present for header lengths of
at least 244. -/
structure MobiHeader where
  header_length : Nat
  mobi_type : Nat
  text_encoding : Nat
  unique_id : Nat
  file_version : Nat
  first_non_book_index : Nat
  full_name_offset : Nat
  full_name_length : Nat
  language : Nat
  first_image_index : Nat
  exth_flags : Option Nat
deriving DecidableEq, Repr

def readMobiHeader (data : List Nat) (record0Start : Nat) : Option MobiHeader :=
  let ms := record0Start + 16
  if data.length < ms + 132 then none
  else if byteSlice data ms (ms + 4) ≠ [0x4D, 0x4F, 0x42, 0x49] then none
  else some
    { header_length := be32 data (ms + 4)
      mobi_type := be32 data (ms + 8)
      text_encoding := be32 data (ms + 12)
      unique_id := be32 data (ms + 16)
      file_version := be32 data (ms + 20)
      first_non_book_index := be32 data (ms + 80)
      full_name_offset := be32 data (ms + 84)
      full_name_length := be32 data (ms + 88)
      language := be32 data (ms + 92)
      first_image_index := be32 data (ms + 108)
      exth_flags := if 244 ≤ be32 data (ms + 4) then some (be32 data (ms + 128)) else none }

/-! ### PalmDoc decompression (MobiImageExtractor._decompress_palmdoc) -/

/-- The 11-bit back-reference distance of a control-byte pair:
((byte << 8) | next_byte) >> 3 & 0x7FF. -/
def palmDistance (a b : Nat) : Nat := (((a <<< 8) ||| b) >>> 3) &&& 0x7FF

/-- The inner copy loop of a back-reference: at each of the length steps
the source checks len(result) >= distance and then appends
result[-distance].  In Python result[-0] is result[0], which raises
IndexError when the output is still empty; for distance of at least 1
the guard makes the index valid. -/
def palmCopy (distance : Nat) : Nat → List Nat → Except PyExn (List Nat)
  | 0, acc => .ok acc
  | n + 1, acc =>
    if distance ≤ acc.length then
      match acc.get? (if distance = 0 then 0 else acc.length - distance) with
      | some v => palmCopy distance n (acc ++ [v])
      | none => .error .indexError
    else .ok acc

/-- The while loop of _decompress_palmdoc, with a fuel parameter to make
the recursion structural; every iteration consumes at least one input
byte, so fuel equal to the input length is always sufficient (the
remaining input empties before the fuel does). -/
def palmLoop : Nat → List Nat → List Nat → Except PyExn (List Nat)
  | _, [], acc => .ok acc
  | 0, _ :: _, acc => .ok acc
  | fuel + 1, b :: rest, acc =>
    if b = 0 then palmLoop fuel rest (acc ++ [b])
    else if b ≤ 8 then palmLoop fuel (rest.drop b) (acc ++ rest.take b)
    else if b ≤ 0x7F then palmLoop fuel rest (acc ++ [b])
    else if b ≤ 0xBF then
      match rest with
      | [] => .ok acc
      | nb :: rest2 =>
        let distance := palmDistance b nb
        let len := (nb &&& 0x07) + 3
        match palmCopy distance len acc with
        | .error e => .error e
        | .ok acc2 => palmLoop fuel rest2 acc2
    else palmLoop fuel rest (acc ++ [32, b ^^^ 0x80])

/-- MobiImageExtractor._decompress_palmdoc. -/
def decompressPalmDoc (data : List Nat) : Except PyExn (List Nat) :=
  palmLoop data.length data []

/-- MobiImageExtractor._find_first_image_record. -/
def findFirstImageRecord (data : List Nat) (records : List (Nat × Nat)) : Nat :=
  match records.enum.find? (fun ir =>
      decide (ir.2.1 < data.length) && decide (ir.2.2 ≤ data.length)
      && isImageData (byteSlice data ir.2.1 ir.2.2)) with
  | some ir => ir.1
  | none => records.length

/-- MobiImageExtractor._extract_text_content.  The mobi header argument
is unused by the source body as well.  The per-record decompression is
wrapped in a try block in the source: a raised exception falls back to
the raw record bytes.  The loop index never reaches len(records) (both
bounds are clamped to it), so the early break of the source is
unreachable and the None branch of the record access returns the
accumulator unchanged. -/
def extractTextContent (data : List Nat) (records : List (Nat × Nat))
    (p : PalmdocHeader) (_m : MobiHeader) : List Nat :=
  let textRecordEnd :=
    if 0 < p.record_count then min (1 + p.record_count) records.length
    else findFirstImageRecord data records
  (List.range' 1 (textRecordEnd - 1)).foldl (fun acc i =>
    match records.get? i with
    | none => acc
    | some se =>
      if data.length ≤ se.1 ∨ data.length < se.2 then acc
      else
        let recordData := byteSlice data se.1 se.2
        if p.compression = 2 then
          acc ++ (match decompressPalmDoc recordData with
                  | .ok d => d
                  | .error _ => recordData)
        else if p.compression = 1 then acc ++ recordData
        else acc) []

/-! ### Reference resolution (MobiImageExtractor._get_image_records_in_order) -/

/-- Insertion sort on naturals; models Python sorted() on the image-map
keys. -/
def insertSorted (x : Nat) : List Nat → List Nat
  | [] => [x]
  | y :: ys => if x ≤ y then x :: y :: ys else y :: insertSorted x ys

def sortNat (l : List Nat) : List Nat := l.foldr insertSorted []

/-- The detected-image map: record index to record bytes for every
record lying inside the buffer whose bytes carry a raster signature.
Keyed in ascending record order, as the building loop produces it. -/
def buildImageMap (data : List Nat) (records : List (Nat × Nat)) : List (Nat × List Nat) :=
  records.enum.filterMap (fun ir =>
    if data.length ≤ ir.2.1 ∨ data.length < ir.2.2 then none
    else
      let recordData := byteSlice data ir.2.1 ir.2.2
      if isImageData recordData then some (ir.1, recordData) else none)

/-- The three reference-interpretation strategies. -/
inductive Strategy
  | absolute
  | relative0
  | relative1
deriving DecidableEq, Repr

/-- Candidate record index of a reference under a strategy with the
given base. -/
def stratCandidate : Strategy → Nat → Nat → Nat
  | .absolute, _, r => r
  | .relative0, base, r => base + r
  | .relative1, base, r => base + r - 1

/-- Number of distinct candidate indices landing inside the detected
map when the references are mapped through a strategy (the local_seen
set of the source). -/
def stratMatchCount (imageMap : List (Nat × List Nat)) (htmlOrder : List Nat)
    (sb : Strategy × Nat) : Nat :=
  (distinctList (htmlOrder.filterMap (fun r =>
    let c := stratCandidate sb.1 sb.2 r
    if (imageMap.lookup c).isSome then some c else none))).length

/-- The strategy-selection fold of the source: best strategy starts as
absolute with a match count of -1 and is replaced whenever a strategy
achieves a strictly higher count. -/
def pickBestStrategy (imageMap : List (Nat × List Nat)) (htmlOrder : List Nat)
    (strategies : List (Strategy × Nat)) : (Strategy × Nat) × Int :=
  strategies.foldl (fun best sb =>
    let c : Int := stratMatchCount imageMap htmlOrder sb
    if best.2 < c then (sb, c) else best) ((.absolute, 0), -1)

/-- The strategy list the source builds: absolute always first; when the
inferred first image index is positive the two relative strategies are
appended, relative-zero first when any reference equals 0 and
relative-one first otherwise. -/
def strategyList (htmlOrder : List Nat) (inferred : Nat) : List (Strategy × Nat) :=
  [(Strategy.absolute, 0)] ++
    (if 0 < inferred then
      (if htmlOrder.any (fun idx => idx = 0) then
        [(Strategy.relative0, inferred), (Strategy.relative1, inferred)]
      else [(Strategy.relative1, inferred), (Strategy.relative0, inferred)])
    else [])

/-- MobiImageExtractor._get_image_records_in_order. -/
def getImageRecordsInOrder (data : List Nat) (records : List (Nat × Nat))
    (htmlOrder : Option (List Nat)) (firstImageIndex : Nat) : List (Nat × List Nat) :=
  let imageMap := buildImageMap data records
  let sortedIdx := sortNat (imageMap.map Prod.fst)
  let inferred :=
    if firstImageIndex ≤ 0 ∧ sortedIdx ≠ [] then sortedIdx.headD 0 else firstImageIndex
  let fromHtml : List (Nat × List Nat) × List Nat :=
    match htmlOrder with
    | none => ([], [])
    | some ho =>
      if ho.isEmpty then ([], [])
      else
        let best := (pickBestStrategy imageMap ho (strategyList ho inferred)).1
        ho.foldl (fun acc r =>
          let c := stratCandidate best.1 best.2 r
          match imageMap.lookup c with
          | some bs => if c ∈ acc.2 then acc else (acc.1 ++ [(c, bs)], acc.2 ++ [c])
          | none => acc) ([], [])
  (sortedIdx.foldl (fun acc idx =>
    if idx ∈ acc.2 then acc
    else if 0 < inferred ∧ idx < inferred then acc
    else
      match imageMap.lookup idx with
      | some bs => (acc.1 ++ [(idx, bs)], acc.2 ++ [idx])
      | none => acc) fromHtml).1

/-! ### MOBI extraction pipeline (MobiImageExtractor.extract_images) -/

/-- The rejection-reason dispatch of the MOBI extract_images loops: only
ignored_hash, duplicate and too_small are mapped to counters. -/
def mobiApplyRejection (s : ExtractionStats) (reason : String) : ExtractionStats :=
  if reason = "ignored_hash" then { s with ignored := s.ignored + 1 }
  else if reason = "duplicate" then { s with duplicates := s.duplicates + 1 }
  else if reason = "too_small" then { s with filtered_by_size := s.filtered_by_size + 1 }
  else s

/-- The filter configuration of a MobiImageExtractor instance.  Its
constructor calls the base constructor with four positional arguments,
so the enable_deduplication argument lands in min_width and the logger
argument (None or a logging.Logger) lands in min_height, while the base
defaults are kept for max_aspect_ratio (0.0) and enable_deduplication
(True). -/
def mobiMkSkipCfg (ignoredHashes : List String) (minImageSize : Int)
    (enableDeduplication : Bool) (loggerIsSome : Bool) : SkipCfg :=
  { ignored_hashes := ignoredHashes
    min_image_size := minImageSize
    min_width := .bool enableDeduplication
    min_height := if loggerIsSome then .pylogger else .pynone
    max_aspect_ratio := 0
    enable_deduplication := true }

/-- The per-image loop of MobiImageExtractor.extract_images (non-dry
path).  There is no per-image exception handler in the source: any
exception raised while filtering or saving an image propagates out of
the loop.  A MobiImageExtractor has no persistent hash cache, and the
writing part of save_image is modelled as succeeding; the hash
bookkeeping of save_image is kept. -/
def mobiLoop (cfg : SkipCfg) (hashFn : List Nat → String) :
    List (Nat × List Nat) → RunState → ExtractionStats →
    Except PyExn (ExtractionStats × RunState)
  | [], s, stats => .ok (stats, s)
  | item :: rest, s, stats =>
    let recordData := item.2
    let h := hashFn recordData
    match should_skip_image cfg s.cache s.extracted recordData.length h
        (parse_image_metrics recordData) with
    | .error e => .error e
    | .ok (true, reason) => mobiLoop cfg hashFn rest s (mobiApplyRejection stats reason)
    | .ok (false, _) =>
      mobiLoop cfg hashFn rest (saveImageHashes s h) { stats with saved := stats.saved + 1 }

/-- The dry-run loop of MobiImageExtractor.extract_images: same skip
logic and counter dispatch, but nothing is saved and no hash is
recorded. -/
def mobiDryLoop (cfg : SkipCfg) (hashFn : List Nat → String) :
    List (Nat × List Nat) → RunState → ExtractionStats →
    Except PyExn ExtractionStats
  | [], _, stats => .ok stats
  | item :: rest, s, stats =>
    let recordData := item.2
    let h := hashFn recordData
    match should_skip_image cfg s.cache s.extracted recordData.length h
        (parse_image_metrics recordData) with
    | .error e => .error e
    | .ok (true, reason) => mobiDryLoop cfg hashFn rest s (mobiApplyRejection stats reason)
    | .ok (false, _) => mobiDryLoop cfg hashFn rest s { stats with saved := stats.saved + 1 }

def MOBI_MAGIC : List Nat := [0x42, 0x4F, 0x4F, 0x4B, 0x4D, 0x4F, 0x42, 0x49]

def PALMDOC_MAGIC : List Nat := [0x54, 0x45, 0x58, 0x74, 0x52, 0x45, 0x41, 0x44]

/-- The magic check of extract_images: either magic as a substring of
the first 100 bytes. -/
def mobiMagicOk (data : List Nat) : Bool :=
  containsSub (data.take 100) MOBI_MAGIC || containsSub (data.take 100) PALMDOC_MAGIC

/-- The ordered image-record list extract_images computes before its
per-image loop: headers are parsed from record 0, the HTML reading order
is extracted from the decompressed text when both headers parsed and the
text is non-empty, and the records are resolved through
_get_image_records_in_order.  The regex-based reference extraction
(_extract_image_order_from_html) is passed in as a function. -/
def mobiOrderedImages (htmlOrderFn : List Nat → List Nat) (data : List Nat)
    (records : List (Nat × Nat)) : List (Nat × List Nat) :=
  let record0Start := (records.headD (0, 0)).1
  let palmdoc := readPalmdocHeader data record0Start
  let mobi := readMobiHeader data record0Start
  let firstImageIndex := (mobi.map (fun m => m.first_image_index)).getD 0
  let htmlOrder : Option (List Nat) :=
    match palmdoc, mobi with
    | some p, some m =>
      let text := extractTextContent data records p m
      if text.isEmpty then none else some (htmlOrderFn text)
    | _, _ => none
  getImageRecordsInOrder data records htmlOrder firstImageIndex

/-- The failure modes of extract_images: InvalidFileError on a failed
magic check, CorruptedFileError when no PDB records are found, and any
other exception re-raised as ExtractionError. -/
inductive MobiError
  | invalidFile
  | corruptedFile
  | extractionError (e : PyExn)
deriving DecidableEq, Repr

/-- MobiImageExtractor.extract_images.  The EXTH metadata parse of the
source is only assigned to an instance field and never affects the
returned statistics or the raised errors, so it is not modelled;
directory preparation and the actual file writes are external I/O
modelled as succeeding. -/
def mobiExtractImages (cfg : SkipCfg) (hashFn : List Nat → String)
    (htmlOrderFn : List Nat → List Nat) (s0 : RunState) (data : List Nat)
    (dryRun : Bool) : Except MobiError ExtractionStats :=
  if ¬ mobiMagicOk data then .error .invalidFile
  else
    let records := readPdbRecords data
    if records.isEmpty then .error .corruptedFile
    else
      let images := mobiOrderedImages htmlOrderFn data records
      if dryRun then
        match mobiDryLoop cfg hashFn images s0 ExtractionStats.init with
        | .error e => .error (.extractionError e)
        | .ok stats => .ok stats
      else
        match mobiLoop cfg hashFn images s0 ExtractionStats.init with
        | .error e => .error (.extractionError e)
        | .ok r => .ok r.1

/-! ## Specification-level renderings of the PalmDoc decompressor

The specification describes the back-reference rule as: copy length
bytes, one byte at a time, each read from distance bytes before the
current output position (so the copy may re-read bytes it just wrote).
backRefEmitSpec renders that sentence literally: a byte exists distance
positions before the current output position only when the distance is
at least 1 and at most the current output length; otherwise the copy
stops.  The amended rendering adds the behaviour the code actually has
for a distance of 0: Python result[-0] is result[0], so the copy emits
the first output byte and raises IndexError when the output is empty. -/

/-- Bytes emitted by a back-reference under the specification reading. -/
def backRefEmitSpec : List Nat → Nat → Nat → List Nat
  | _, _, 0 => []
  | out, d, n + 1 =>
    if 1 ≤ d ∧ d ≤ out.length then
      let v := out.getD (out.length - d) 0
      v :: backRefEmitSpec (out ++ [v]) d n
    else []

/-- Bytes emitted by a back-reference under the amended reading: a
distance of 0 repeats the first output byte (IndexError on empty
output), any other distance behaves as the specification says. -/
def backRefEmitAmended (out : List Nat) (d n : Nat) : Except PyExn (List Nat) :=
  if d = 0 then
    match out with
    | [] => if n = 0 then .ok [] else .error .indexError
    | v :: _ => .ok (List.replicate n v)
  else .ok (backRefEmitSpec out d n)

/-- The decompression loop with back-references read exactly as the
specification sentence states them (and truncation stopping cleanly). -/
def palmLoopSpec : Nat → List Nat → List Nat → List Nat
  | _, [], acc => acc
  | 0, _ :: _, acc => acc
  | fuel + 1, b :: rest, acc =>
    if b = 0 then palmLoopSpec fuel rest (acc ++ [b])
    else if b ≤ 8 then palmLoopSpec fuel (rest.drop b) (acc ++ rest.take b)
    else if b ≤ 0x7F then palmLoopSpec fuel rest (acc ++ [b])
    else if b ≤ 0xBF then
      match rest with
      | [] => acc
      | nb :: rest2 =>
        palmLoopSpec fuel rest2 (acc ++ backRefEmitSpec acc (palmDistance b nb) ((nb &&& 0x07) + 3))
    else palmLoopSpec fuel rest (acc ++ [32, b ^^^ 0x80])

/-- Decompression as the claim states it. -/
def decompressPalmDocSpec (data : List Nat) : List Nat :=
  palmLoopSpec data.length data []

/-- The decompression loop under the amended back-reference reading. -/
def palmLoopAmended : Nat → List Nat → List Nat → Except PyExn (List Nat)
  | _, [], acc => .ok acc
  | 0, _ :: _, acc => .ok acc
  | fuel + 1, b :: rest, acc =>
    if b = 0 then palmLoopAmended fuel rest (acc ++ [b])
    else if b ≤ 8 then palmLoopAmended fuel (rest.drop b) (acc ++ rest.take b)
    else if b ≤ 0x7F then palmLoopAmended fuel rest (acc ++ [b])
    else if b ≤ 0xBF then
      match rest with
      | [] => .ok acc
      | nb :: rest2 =>
        match backRefEmitAmended acc (palmDistance b nb) ((nb &&& 0x07) + 3) with
        | .error e => .error e
        | .ok em => palmLoopAmended fuel rest2 (acc ++ em)
    else palmLoopAmended fuel rest (acc ++ [32, b ^^^ 0x80])

/-- Decompression as the amended claim states it. -/
def decompressPalmDocAmended (data : List Nat) : Except PyExn (List Nat) :=
  palmLoopAmended data.length data []

/-- Adjacent-pair scan: no control-byte pair in back-reference range
computes an 11-bit distance of 0.  The only such pair is the byte 0x80
followed by a byte below 8. -/
def noZeroDistancePair : List Nat → Bool
  | a :: b :: rest =>
    (!(decide (0x80 ≤ a) && decide (a ≤ 0xBF) && decide (palmDistance a b = 0)))
      && noZeroDistancePair (b :: rest)
  | _ => true

/-! ## Concrete inputs used by the example and counterexample theorems -/

/-- An 8-byte record carrying a JPEG signature. -/
def jpegBlock : List Nat := [0xFF, 0xD8, 0xFF, 0, 0, 0, 0, 0]

/-- A 13-record layout whose records 10, 11 and 12 are image data (the
strategy-selection example of the specification). -/
def exampleData13 : List Nat := List.replicate 80 0 ++ jpegBlock ++ jpegBlock ++ jpegBlock

def exampleRecords13 : List (Nat × Nat) := (List.range 13).map (fun i => (8 * i, 8 * i + 8))

/-- A minimal well-formed MOBI file: 78-byte PDB header with the
BOOKMOBI magic in the type and creator slots and two records, record 0 a
16-byte PalmDoc header (compression 1), record 1 a JPEG-signature image
record.  The buffer is too short for a MOBI header, so no HTML order is
attempted. -/
def mobiSmallFile : List Nat :=
  List.replicate 60 0 ++ MOBI_MAGIC ++ List.replicate 8 0
    ++ [0, 2]
    ++ [0, 0, 0, 94, 0, 0, 0, 0]
    ++ [0, 0, 0, 110, 0, 0, 0, 0]
    ++ ([0, 1] ++ List.replicate 14 0)
    ++ jpegBlock

/-- A 94-byte buffer with a valid PDB header and a non-monotonic offset
table: two entries with offsets 90 and 80. -/
def pdbNonMonotonicFile : List Nat :=
  List.replicate 76 0 ++ [0, 2]
    ++ [0, 0, 0, 90, 0, 0, 0, 0]
    ++ [0, 0, 0, 80, 0, 0, 0, 0]

/-- A 24-byte PNG header declaring width 120 and height 800. -/
def png120x800 : List Nat :=
  pngSignature ++ [0, 0, 0, 13] ++ [0x49, 0x48, 0x44, 0x52]
    ++ [0, 0, 0, 120] ++ [0, 0, 3, 32]

/-! ## Helper lemmas -/

/-- The aspect ratio equals mkRat of width and height: mkRat is 0 at
height 0, matching the guard, and otherwise agrees with the division.
This form evaluates by kernel reduction, which the field-division form
does not. -/
theorem aspect_ratio_eq_mkRat (m : ImageMetrics) :
    m.aspect_ratio = mkRat m.width m.height := by
  unfold ImageMetrics.aspect_ratio
  rcases Nat.eq_zero_or_pos m.height with h0 | hpos
  · rw [if_pos (by omega), h0]
    simp
  · rw [if_neg (by omega), Rat.mkRat_eq_div]
    norm_num

/-- The quarter literal in mkRat form, for kernel evaluation. -/
theorem quarterRat : (1 : ℚ) / 4 = mkRat 1 4 := by
  norm_num [Rat.mkRat_eq_div]

/-- The size floor is the first check of should_skip_image: when it
fires, the skip reason is too_small regardless of every other field of
the configuration (including the ill-typed min_width and min_height of a
MOBI instance, which are only compared later). -/
theorem should_skip_size_floor (cfg : SkipCfg) (cache : Option (List String))
    (extracted : List String) (dataLen : Nat) (imgHash : String) (m : ImageMetrics)
    (h1 : 0 < cfg.min_image_size) (h2 : (dataLen : Int) < cfg.min_image_size) :
    should_skip_image cfg cache extracted dataLen imgHash m = .ok (true, "too_small") := by
  unfold should_skip_image
  rw [if_pos ⟨h1, h2⟩]

/-- On a MOBI-instance configuration, any image that clears the size
floor reaches the min_height comparison (the width floor with a bool
min_width never fires) and that comparison raises TypeError. -/
theorem mobi_should_skip_typeError (ign : List String) (ms : Int) (dd lg : Bool)
    (cache : Option (List String)) (extracted : List String) (dataLen : Nat)
    (imgHash : String) (m : ImageMetrics)
    (h : ¬(0 < ms ∧ (dataLen : Int) < ms)) :
    should_skip_image (mobiMkSkipCfg ign ms dd lg) cache extracted dataLen imgHash m
      = .error .typeError := by
  unfold should_skip_image mobiMkSkipCfg
  simp only
  rw [if_neg h]
  cases dd <;> cases lg <;>
    by_cases hw : 0 < m.width <;>
      simp [pyGtZero, pyLtNat, hw]
  all_goals
    have h1 : (1 : Int) ≤ (m.width : Int) := by exact_mod_cast hw
    omega

/-! ## Claim C2: classification order and the 120 by 800 example -/

/-- C2 counterexample: a 120 by 800 PNG parses to width 120 and height
800, and classify_image labels it thumbnail (its width is at most
140px), not decoration as the claim states. -/
theorem c2_counterexample :
    parse_image_metrics png120x800
      = { size_bytes := 24, width := 120, height := 800,
          extension := ".png", mime_type := "image/png" } ∧
    classify_image (parse_image_metrics png120x800) false = "thumbnail" ∧
    classify_image (parse_image_metrics png120x800) false ≠ "decoration" := by
  refine ⟨by decide, by decide, by decide⟩

/-- C2 amended: for every image with known nonzero dimensions,
classify_image with is_cover false follows the stated rule order
(thumbnail when either dimension is at most 140, then the aspect-ratio
decoration rule, then the byte-size decoration rule, then page); because
the thumbnail rule comes first, a 120 by 800 PNG is classified
thumbnail, not decoration, even though its aspect ratio 0.15 is
extreme. -/
theorem c2_classification_order (m : ImageMetrics)
    (hw : 0 < m.width) (hh : 0 < m.height) :
    classify_image m false = classifySpecKnownDims m ∧
    classify_image (parse_image_metrics png120x800) false = "thumbnail" := by
  constructor
  · unfold classify_image classifySpecKnownDims
    rw [if_neg (by simp), if_pos ⟨hw, hh⟩]
  · decide

/-- A concrete 150 by 800 metrics record used as classification
witness input. -/
def metrics150x800 : ImageMetrics :=
  { size_bytes := 5000, width := 150, height := 800,
    extension := ".png", mime_type := "image/png" }

/-- Witness for c2_classification_order at a concrete 150 by 800 image
with known dimensions. -/
theorem c2_classification_order_witness :
    classify_image metrics150x800 false = classifySpecKnownDims metrics150x800 ∧
    classify_image metrics150x800 false = "decoration" :=
  ⟨(c2_classification_order metrics150x800 (by decide) (by decide)).1,
   by simp only [classify_image, aspect_ratio_eq_mkRat, quarterRat]; decide⟩

/-! ## Claim C7: PDB record-table parsing -/

/-- C7 counterexample: a 94-byte buffer whose two offset-table entries
are the non-monotonic offsets 90 and 80 does not parse to the empty
record list; the offending first entry is dropped and the second is
kept. -/
theorem c7_counterexample :
    be32 pdbNonMonotonicFile 78 = 90 ∧ be32 pdbNonMonotonicFile 86 = 80 ∧
    readPdbRecords pdbNonMonotonicFile = [(80, 94)] := by
  refine ⟨by decide, by decide, by decide⟩

/-- C7 amended: _read_pdb_records returns the empty list whenever the
buffer is shorter than 78 bytes; offset-table entries that are
non-monotonic or out of range are dropped individually (every emitted
record has start below end and start inside the buffer) rather than
failing the whole table closed; record i otherwise spans from its own
offset to the next offset, the final record ending at the file
length. -/
theorem c7_read_pdb_records :
    (∀ data : List Nat, data.length < 78 → readPdbRecords data = []) ∧
    (∀ (data : List Nat) (p : Nat × Nat),
      p ∈ readPdbRecords data → p.1 < p.2 ∧ p.1 < data.length) := by
  constructor
  · intro data h
    unfold readPdbRecords
    rw [if_pos h]
  · intro data p hp
    unfold readPdbRecords at hp
    split at hp
    · simp at hp
    · rcases List.mem_filterMap.mp hp with ⟨i, _, hi⟩
      dsimp only at hi
      split at hi <;> split at hi <;>
        first
          | (rename_i hmain
             injection hi with hpe
             subst hpe
             exact hmain)
          | exact absurd hi (by simp)

/-- Witness for c7_read_pdb_records: a 10-byte buffer parses to no
records, and the single record of the non-monotonic example is
well-formed. -/
theorem c7_read_pdb_records_witness :
    readPdbRecords (List.replicate 10 0) = [] ∧
    ((80, 94) : Nat × Nat).1 < ((80, 94) : Nat × Nat).2 ∧
    ((80, 94) : Nat × Nat).1 < pdbNonMonotonicFile.length :=
  ⟨c7_read_pdb_records.1 _ (by decide),
   c7_read_pdb_records.2 pdbNonMonotonicFile (80, 94) (by decide)⟩

/-! ## Claim C9: EPUB archive-entry fallback -/

/-- C9: when the HTML-reference pass accepted no image paths, the EPUB
extractor falls back to every archive entry whose lower-cased extension
is a known image extension, in archive-listing order; the three image
entries of the specification example are produced in order. -/
theorem c9_epub_fallback :
    (∀ allFiles : List String,
      epubSelectImagePaths [] allFiles
        = allFiles.filter (fun f => lowerStr (splitextExt f) ∈ epubImageExtensions)) ∧
    epubSelectImagePaths []
        ["mimetype", "META-INF/container.xml", "OEBPS/content.opf", "OEBPS/ch1.xhtml",
         "img/a.jpg", "img/b.png", "cover.jpg"]
      = ["img/a.jpg", "img/b.png", "cover.jpg"] := by
  constructor
  · intro allFiles
    rfl
  · decide

/-! ## PalmDoc decompression lemmas -/

/-- An in-range list index read through get? yields the getD value. -/
theorem get?_eq_some_getD {l : List Nat} {i : Nat} (h : i < l.length) :
    l.get? i = some (l.getD i 0) := by
  rw [List.getD_eq_getElem?_getD, List.get?_eq_getElem?]
  cases hx : l[i]? with
  | none =>
    simp [List.getElem?_eq_none_iff] at hx
    omega
  | some v => simp

/-- A zero-distance copy over a non-empty output repeats its first
byte. -/
theorem palmCopy_zero_cons (n : Nat) (v : Nat) :
    ∀ t : List Nat, palmCopy 0 n (v :: t) = .ok (v :: (t ++ List.replicate n v)) := by
  induction n with
  | zero => intro t; simp [palmCopy]
  | succ n ih =>
    intro t
    have step : palmCopy 0 (n + 1) (v :: t) = palmCopy 0 n (v :: (t ++ [v])) := by
      simp [palmCopy]
    rw [step, ih (t ++ [v])]
    simp [List.replicate_succ]

/-- A zero-distance copy of positive length over empty output raises
IndexError. -/
theorem palmCopy_zero_nil {n : Nat} (h : 0 < n) :
    palmCopy 0 n [] = .error .indexError := by
  cases n with
  | zero => omega
  | succ n => rfl

/-- A copy with positive distance never raises and emits exactly the
specification back-reference bytes. -/
theorem palmCopy_pos (d : Nat) (hd : 1 ≤ d) :
    ∀ (n : Nat) (acc : List Nat),
      palmCopy d n acc = .ok (acc ++ backRefEmitSpec acc d n) := by
  intro n
  induction n with
  | zero => intro acc; simp [palmCopy, backRefEmitSpec]
  | succ n ih =>
    intro acc
    by_cases hlen : d ≤ acc.length
    · have hidx : acc.length - d < acc.length := by omega
      have hcopy : palmCopy d (n + 1) acc
          = palmCopy d n (acc ++ [acc.getD (acc.length - d) 0]) := by
        rw [palmCopy, if_pos hlen, if_neg (show ¬ d = 0 by omega),
          get?_eq_some_getD hidx]
      have hc : 1 ≤ d ∧ d ≤ acc.length := ⟨hd, hlen⟩
      have hspec : backRefEmitSpec acc d (n + 1)
          = acc.getD (acc.length - d) 0
              :: backRefEmitSpec (acc ++ [acc.getD (acc.length - d) 0]) d n := by
        rw [backRefEmitSpec, if_pos hc]
      rw [hcopy, ih, hspec]
      simp
    · have hcopy : palmCopy d (n + 1) acc = .ok acc := by
        rw [palmCopy, if_neg hlen]
      have hspec : backRefEmitSpec acc d (n + 1) = [] := by
        rw [backRefEmitSpec, if_neg (by omega)]
      rw [hcopy, hspec]
      simp

/-- palmCopy agrees with the amended back-reference emission. -/
theorem palmCopy_eq_amended (d n : Nat) (acc : List Nat) :
    palmCopy d n acc
      = match backRefEmitAmended acc d n with
        | .error e => .error e
        | .ok em => .ok (acc ++ em) := by
  unfold backRefEmitAmended
  by_cases hd : d = 0
  · subst hd
    cases acc with
    | nil =>
      cases n with
      | zero => simp [palmCopy]
      | succ n =>
        rw [palmCopy_zero_nil (by omega)]
        simp
    | cons v t =>
      rw [palmCopy_zero_cons]
      simp
  · rw [if_neg hd]
    rw [palmCopy_pos d (by omega)]

/-- The decompression loop agrees with its amended-specification
rendering at every fuel, input and accumulator. -/
theorem palmLoop_eq_amended :
    ∀ (fuel : Nat) (input acc : List Nat),
      palmLoop fuel input acc = palmLoopAmended fuel input acc := by
  intro fuel
  induction fuel with
  | zero =>
    intro input acc
    cases input <;> rfl
  | succ fuel ih =>
    intro input acc
    cases input with
    | nil => rfl
    | cons b rest =>
      simp only [palmLoop, palmLoopAmended]
      by_cases h0 : b = 0
      · rw [if_pos h0, if_pos h0, ih]
      · rw [if_neg h0, if_neg h0]
        by_cases h8 : b ≤ 8
        · rw [if_pos h8, if_pos h8, ih]
        · rw [if_neg h8, if_neg h8]
          by_cases h7f : b ≤ 0x7F
          · rw [if_pos h7f, if_pos h7f, ih]
          · rw [if_neg h7f, if_neg h7f]
            by_cases hbf : b ≤ 0xBF
            · rw [if_pos hbf, if_pos hbf]
              cases rest with
              | nil => rfl
              | cons nb rest2 =>
                simp only
                rw [palmCopy_eq_amended]
                cases hE : backRefEmitAmended acc (palmDistance b nb) ((nb &&& 0x07) + 3) with
                | error e => simp
                | ok em =>
                  simp only
                  rw [ih]
            · rw [if_neg hbf, if_neg hbf, ih]

/-! ## Claim C4: the PalmDoc control-byte rules -/

/-- C4 counterexample: on the input 0x41 0x80 0x00 the code emits the
literal 0x41 and then, for the zero-distance back-reference, copies the
first output byte three times (Python result[-0] is result[0]),
producing four bytes; the specification back-reference rule (reading
from distance bytes before the current output position) emits
nothing there, so the claimed rules do not describe the code. -/
theorem c4_counterexample :
    decompressPalmDoc [0x41, 0x80, 0x00] = .ok [0x41, 0x41, 0x41, 0x41] ∧
    decompressPalmDocSpec [0x41, 0x80, 0x00] = [0x41] ∧
    decompressPalmDoc [0x41, 0x80, 0x00]
      ≠ .ok (decompressPalmDocSpec [0x41, 0x80, 0x00]) := by
  refine ⟨by decide, by decide, by decide⟩

/-- C4 amended: the decompressor follows the stated control-byte rules,
with the back-reference rule amended at distance 0: a zero computed
distance (control byte 0x80 with next byte below 8) copies the first
output byte length times and raises IndexError when the output is still
empty; all other distances copy from distance bytes before the current
output position, one byte at a time, stopping early when fewer than
distance bytes have been emitted. -/
theorem c4_decompress_rules :
    ∀ data : List Nat, decompressPalmDoc data = decompressPalmDocAmended data := by
  intro data
  unfold decompressPalmDoc decompressPalmDocAmended
  exact palmLoop_eq_amended data.length data []

/-! ## Claim C5: decompression safety -/

/-- C5 counterexample: the two-byte input 0x80 0x00 is a back-reference
with computed distance 0 while the output is still empty; the code
raises IndexError on it instead of returning a byte string. -/
theorem c5_counterexample :
    decompressPalmDoc [0x80, 0x00] = .error .indexError := by
  decide

/-- Tail closure of the zero-distance-pair scan. -/
theorem noZeroDistancePair_tail {x : Nat} {l : List Nat}
    (h : noZeroDistancePair (x :: l) = true) : noZeroDistancePair l = true := by
  cases l with
  | nil => rfl
  | cons y ys =>
    rw [noZeroDistancePair] at h
    simp only [Bool.and_eq_true] at h
    exact h.2

/-- Drop closure of the zero-distance-pair scan. -/
theorem noZeroDistancePair_drop (k : Nat) :
    ∀ l : List Nat, noZeroDistancePair l = true → noZeroDistancePair (l.drop k) = true := by
  induction k with
  | zero => intro l h; exact h
  | succ k ih =>
    intro l h
    cases l with
    | nil => rfl
    | cons x xs => exact ih xs (noZeroDistancePair_tail h)

/-- The decompression loop returns cleanly on every input whose
adjacent byte pairs never compute a back-reference distance of 0. -/
theorem palmLoop_ok_of_noZeroDistancePair :
    ∀ (fuel : Nat) (input acc : List Nat), noZeroDistancePair input = true →
      ∃ out, palmLoop fuel input acc = .ok out := by
  intro fuel
  induction fuel with
  | zero =>
    intro input acc _
    cases input with
    | nil => exact ⟨acc, rfl⟩
    | cons b rest => exact ⟨acc, rfl⟩
  | succ fuel ih =>
    intro input acc h
    cases input with
    | nil => exact ⟨acc, rfl⟩
    | cons b rest =>
      simp only [palmLoop]
      by_cases h0 : b = 0
      · rw [if_pos h0]; exact ih rest _ (noZeroDistancePair_tail h)
      · rw [if_neg h0]
        by_cases h8 : b ≤ 8
        · rw [if_pos h8]
          exact ih (rest.drop b) _ (noZeroDistancePair_drop b rest (noZeroDistancePair_tail h))
        · rw [if_neg h8]
          by_cases h7f : b ≤ 0x7F
          · rw [if_pos h7f]; exact ih rest _ (noZeroDistancePair_tail h)
          · rw [if_neg h7f]
            by_cases hbf : b ≤ 0xBF
            · rw [if_pos hbf]
              cases rest with
              | nil => exact ⟨acc, rfl⟩
              | cons nb rest2 =>
                simp only
                have hd : 1 ≤ palmDistance b nb := by
                  rcases Nat.eq_zero_or_pos (palmDistance b nb) with hz | hp
                  · exfalso
                    rw [noZeroDistancePair] at h
                    simp only [Bool.and_eq_true, decide_eq_true_eq] at h
                    have h1 := h.1
                    simp only [hz, Bool.not_eq_true'] at h1
                    simp only [Bool.and_eq_false_iff, decide_eq_false_iff_not,
                      decide_eq_true_eq] at h1
                    rcases h1 with h1 | h1
                    · rcases h1 with h1 | h1
                      · exact h1 (by omega)
                      · exact h1 hbf
                    · exact h1 trivial
                  · omega
                rw [palmCopy_pos _ hd]
                exact ih rest2 _ (noZeroDistancePair_tail (noZeroDistancePair_tail h))
            · rw [if_neg hbf]
              exact ih rest _ (noZeroDistancePair_tail h)

set_option maxRecDepth 4000 in
/-- C5 amended: decompressPalmDoc terminates on every input, and it
returns a byte string without raising for every input containing no
adjacent pair that computes an 11-bit back-reference distance of 0; the
only pairs computing distance 0 start with the control byte 0x80
followed by a byte below 8, and such a pair can raise IndexError (see
the counterexample on 0x80 0x00). -/
theorem c5_decompress_safety :
    (∀ data : List Nat, noZeroDistancePair data = true →
       ∃ out, decompressPalmDoc data = .ok out) ∧
    (∀ b : Nat, b < 256 → (palmDistance 0x80 b = 0 ↔ b < 8)) := by
  constructor
  · intro data h
    exact palmLoop_ok_of_noZeroDistancePair data.length data [] h
  · decide

/-- Witness for c5_decompress_safety: a concrete stream with literals, a
space escape and a distance-8 back-reference pair has no zero-distance
pair and decompresses cleanly; the distance characterization is
instantiated at the byte 0x08. -/
theorem c5_decompress_safety_witness :
    (noZeroDistancePair [0x41, 0xC1, 0x80, 0x08] = true ∧
      ∃ out, decompressPalmDoc [0x41, 0xC1, 0x80, 0x08] = .ok out) ∧
    ((8 : Nat) < 256 ∧ (palmDistance 0x80 8 = 0 ↔ (8 : Nat) < 8)) :=
  ⟨⟨by decide, c5_decompress_safety.1 [0x41, 0xC1, 0x80, 0x08] (by decide)⟩,
   ⟨by decide, c5_decompress_safety.2 8 (by decide)⟩⟩

/-! ## Claim C3: filter priority order -/

/-- C3: for an instance whose min_width and min_height are integers (as
the base and EPUB constructors produce), should_skip_image equals the
first firing check of the ordered list size floor, width floor, height
floor, aspect-ratio ceiling, persistent-cache membership, ignore-hash
membership, in-run duplicate membership; in particular an image below a
positive size floor is rejected as too_small even when its hash is in
the ignore set, and the too_small reason is counted under
filtered_by_size (not under ignored) by both extractors. -/
theorem c3_skip_priority :
    (∀ (cfg : SkipCfg) (cache : Option (List String)) (extr : List String)
       (len : Nat) (h : String) (m : ImageMetrics) (mw mh : Int),
      cfg.min_width = .int mw → cfg.min_height = .int mh →
      should_skip_image cfg cache extr len h m
        = .ok (firstMatch (skipCheckList cfg cache extr mw mh len h m))) ∧
    (∀ (cfg : SkipCfg) (cache : Option (List String)) (extr : List String)
       (len : Nat) (h : String) (m : ImageMetrics),
      0 < cfg.min_image_size → (len : Int) < cfg.min_image_size →
      h ∈ cfg.ignored_hashes →
      should_skip_image cfg cache extr len h m = .ok (true, "too_small")) ∧
    (∀ s : ExtractionStats,
      epubApplyRejection s "too_small"
          = { s with filtered_by_size := s.filtered_by_size + 1 } ∧
        mobiApplyRejection s "too_small"
          = { s with filtered_by_size := s.filtered_by_size + 1 } ∧
        (epubApplyRejection s "too_small").ignored = s.ignored) := by
  refine ⟨?_, ?_, ?_⟩
  · intro cfg cache extr len h m mw mh hw hh
    obtain ⟨ih, ms, mwv, mhv, mar, ed⟩ := cfg
    simp only at hw hh
    subst hw hh
    unfold should_skip_image skipCheckList
    simp only [pyGtZero, pyLtNat]
    by_cases c1 : 0 < ms ∧ (len : Int) < ms
    · rw [if_pos c1, if_pos c1, firstMatch]
    · rw [if_neg c1, if_neg c1]
      dsimp only
      by_cases c2 : 0 < mw ∧ 0 < m.width ∧ (m.width : Int) < mw
      · have hcc : decide (0 < mw) = true ∧ 0 < m.width := ⟨by simp [c2.1], c2.2.1⟩
        rw [if_pos hcc]
        dsimp only
        rw [if_pos (show decide ((m.width : Int) < mw) = true by simp [c2.2.2]),
          if_pos c2]
        simp [firstMatch]
      · rw [if_neg c2]
        by_cases c2a : 0 < mw ∧ 0 < m.width
        · have hcc : decide (0 < mw) = true ∧ 0 < m.width := ⟨by simp [c2a.1], c2a.2⟩
          rw [if_pos hcc]
          dsimp only
          have hns : ¬((m.width : Int) < mw) := fun hlt => c2 ⟨c2a.1, c2a.2, hlt⟩
          rw [if_neg (show ¬(decide ((m.width : Int) < mw) = true) by simp [hns])]
          by_cases c3 : 0 < mh ∧ 0 < m.height ∧ (m.height : Int) < mh
          · have hhc : decide (0 < mh) = true ∧ 0 < m.height := ⟨by simp [c3.1], c3.2.1⟩
            rw [if_pos hhc]
            dsimp only
            rw [if_pos (show decide ((m.height : Int) < mh) = true by simp [c3.2.2]),
              if_pos c3]
            simp [firstMatch]
          · rw [if_neg c3]
            by_cases c3a : 0 < mh ∧ 0 < m.height
            · have hhc : decide (0 < mh) = true ∧ 0 < m.height :=
                ⟨by simp [c3a.1], c3a.2⟩
              rw [if_pos hhc]
              dsimp only
              have hns2 : ¬((m.height : Int) < mh) := fun hlt => c3 ⟨c3a.1, c3a.2, hlt⟩
              rw [if_neg (show ¬(decide ((m.height : Int) < mh) = true) by simp [hns2])]
              split_ifs <;> simp [firstMatch]
            · rw [if_neg (show ¬(decide (0 < mh) = true ∧ 0 < m.height) by
                simpa using c3a)]
              dsimp only
              rw [if_neg (show ¬(false = true) by simp)]
              split_ifs <;> simp [firstMatch]
        · rw [if_neg (show ¬(decide (0 < mw) = true ∧ 0 < m.width) by simpa using c2a)]
          dsimp only
          rw [if_neg (show ¬(false = true) by simp)]
          by_cases c3 : 0 < mh ∧ 0 < m.height ∧ (m.height : Int) < mh
          · have hhc : decide (0 < mh) = true ∧ 0 < m.height := ⟨by simp [c3.1], c3.2.1⟩
            rw [if_pos hhc]
            dsimp only
            rw [if_pos (show decide ((m.height : Int) < mh) = true by simp [c3.2.2]),
              if_pos c3]
            simp [firstMatch]
          · rw [if_neg c3]
            by_cases c3a : 0 < mh ∧ 0 < m.height
            · have hhc : decide (0 < mh) = true ∧ 0 < m.height :=
                ⟨by simp [c3a.1], c3a.2⟩
              rw [if_pos hhc]
              dsimp only
              have hns2 : ¬((m.height : Int) < mh) := fun hlt => c3 ⟨c3a.1, c3a.2, hlt⟩
              rw [if_neg (show ¬(decide ((m.height : Int) < mh) = true) by simp [hns2])]
              split_ifs <;> simp [firstMatch]
            · rw [if_neg (show ¬(decide (0 < mh) = true ∧ 0 < m.height) by
                simpa using c3a)]
              dsimp only
              rw [if_neg (show ¬(false = true) by simp)]
              split_ifs <;> simp [firstMatch]
  · intro cfg cache extr len h m h1 h2 _
    exact should_skip_size_floor cfg cache extr len h m h1 h2
  · intro s
    refine ⟨rfl, rfl, ?_⟩
    rfl

/-- Configuration used by the C3 witness: a 1024-byte size floor, no
dimension floors, and the witness hash in the ignore set. -/
def c3WitnessCfg : SkipCfg :=
  { ignored_hashes := ["deadbeef"]
    min_image_size := 1024
    min_width := .int 0
    min_height := .int 0
    max_aspect_ratio := 0
    enable_deduplication := true }

/-- Witness for c3_skip_priority: a 500-byte image whose hash is in the
ignore set is rejected as too_small, matching the ordered checklist. -/
theorem c3_skip_priority_witness :
    should_skip_image c3WitnessCfg none [] 500 "deadbeef"
        { size_bytes := 500, width := 0, height := 0,
          extension := ".jpg", mime_type := "image/jpeg" }
      = .ok (firstMatch (skipCheckList c3WitnessCfg none [] 0 0 500 "deadbeef"
          { size_bytes := 500, width := 0, height := 0,
            extension := ".jpg", mime_type := "image/jpeg" })) ∧
    should_skip_image c3WitnessCfg none [] 500 "deadbeef"
        { size_bytes := 500, width := 0, height := 0,
          extension := ".jpg", mime_type := "image/jpeg" }
      = .ok (true, "too_small") ∧
    epubApplyRejection ExtractionStats.init "too_small"
      = { ExtractionStats.init with filtered_by_size := 1 } :=
  ⟨c3_skip_priority.1 c3WitnessCfg none [] 500 "deadbeef" _ 0 0 rfl rfl,
   c3_skip_priority.2.1 c3WitnessCfg none [] 500 "deadbeef" _ (by decide) (by decide)
     (by decide),
   (c3_skip_priority.2.2 ExtractionStats.init).1⟩

/-! ## Claim C6: reference-strategy selection -/

/-- One step of the strategy-selection fold. -/
def pickStep (imageMap : List (Nat × List Nat)) (ho : List Nat)
    (best : (Strategy × Nat) × Int) (sb : Strategy × Nat) : (Strategy × Nat) × Int :=
  let c : Int := stratMatchCount imageMap ho sb
  if best.2 < c then (sb, c) else best

theorem pickBestStrategy_eq_foldl (imageMap : List (Nat × List Nat)) (ho : List Nat)
    (l : List (Strategy × Nat)) :
    pickBestStrategy imageMap ho l = l.foldl (pickStep imageMap ho) ((.absolute, 0), -1) :=
  rfl

/-- The strategy-selection fold returns either its initial accumulator
or an element of the list achieving its recorded count, the recorded
count never decreases, and it dominates the count of every element. -/
theorem foldl_pickStep_spec (imageMap : List (Nat × List Nat)) (ho : List Nat) :
    ∀ (l : List (Strategy × Nat)) (b0 : (Strategy × Nat) × Int),
      (l.foldl (pickStep imageMap ho) b0 = b0 ∨
        ((l.foldl (pickStep imageMap ho) b0).1 ∈ l ∧
          (l.foldl (pickStep imageMap ho) b0).2
            = stratMatchCount imageMap ho (l.foldl (pickStep imageMap ho) b0).1)) ∧
      b0.2 ≤ (l.foldl (pickStep imageMap ho) b0).2 ∧
      ∀ sb ∈ l, (stratMatchCount imageMap ho sb : Int)
          ≤ (l.foldl (pickStep imageMap ho) b0).2 := by
  intro l
  induction l with
  | nil =>
    intro b0
    refine ⟨Or.inl rfl, le_refl _, ?_⟩
    intro sb hsb
    simp at hsb
  | cons x xs ih =>
    intro b0
    have hfold : (x :: xs).foldl (pickStep imageMap ho) b0
        = xs.foldl (pickStep imageMap ho) (pickStep imageMap ho b0 x) := rfl
    obtain ⟨ih1, ih2, ih3⟩ := ih (pickStep imageMap ho b0 x)
    have hstep2 : b0.2 ≤ (pickStep imageMap ho b0 x).2 := by
      unfold pickStep
      dsimp only
      split_ifs with hlt
      · exact le_of_lt hlt
      · exact le_refl _
    have hstepx : (stratMatchCount imageMap ho x : Int) ≤ (pickStep imageMap ho b0 x).2 := by
      unfold pickStep
      dsimp only
      split_ifs with hlt
      · exact le_refl _
      · omega
    refine ⟨?_, ?_, ?_⟩
    · rw [hfold]
      rcases ih1 with h1 | h1
      · rw [h1]
        unfold pickStep
        dsimp only
        split_ifs with hlt
        · exact Or.inr ⟨List.mem_cons_self x xs, rfl⟩
        · exact Or.inl rfl
      · exact Or.inr ⟨List.mem_cons_of_mem x h1.1, h1.2⟩
    · rw [hfold]
      exact le_trans hstep2 ih2
    · intro sb hsb
      rw [hfold]
      rcases List.mem_cons.mp hsb with hx | hxs
      · subst hx
        exact le_trans hstepx ih2
      · exact ih3 sb hxs

set_option maxRecDepth 8000 in
/-- C6: the strategy-selection fold picks a strategy from the source's
strategy list whose distinct-reference match count dominates every other
listed strategy, and on the specification example (detected records 10,
11, 12, first image index 10, references 0, 1, 2) it picks relative-zero
and the resolver emits records 10, 11, 12 in order. -/
theorem c6_strategy_selection :
    (∀ (imageMap : List (Nat × List Nat)) (ho : List Nat) (inferred : Nat),
      (pickBestStrategy imageMap ho (strategyList ho inferred)).1
          ∈ strategyList ho inferred ∧
      ∀ sb ∈ strategyList ho inferred,
        stratMatchCount imageMap ho sb
          ≤ stratMatchCount imageMap ho
              (pickBestStrategy imageMap ho (strategyList ho inferred)).1) ∧
    (pickBestStrategy (buildImageMap exampleData13 exampleRecords13) [0, 1, 2]
        (strategyList [0, 1, 2] 10)).1 = (Strategy.relative0, 10) ∧
    getImageRecordsInOrder exampleData13 exampleRecords13 (some [0, 1, 2]) 10
      = [(10, jpegBlock), (11, jpegBlock), (12, jpegBlock)] := by
  refine ⟨?_, by decide, by decide⟩
  intro imageMap ho inferred
  obtain ⟨h1, _, h3⟩ :=
    foldl_pickStep_spec imageMap ho (strategyList ho inferred) ((.absolute, 0), -1)
  rw [pickBestStrategy_eq_foldl]
  have habs : (Strategy.absolute, (0 : Nat)) ∈ strategyList ho inferred := by
    simp [strategyList]
  have hge : (0 : Int)
      ≤ ((strategyList ho inferred).foldl (pickStep imageMap ho)
          ((Strategy.absolute, 0), -1)).2 :=
    le_trans (Int.natCast_nonneg _) (h3 _ habs)
  rcases h1 with h1 | h1
  · exfalso
    rw [h1] at hge
    omega
  · refine ⟨h1.1, ?_⟩
    intro sb hsb
    have hle := h3 sb hsb
    rw [h1.2] at hle
    exact_mod_cast hle

/-- Witness for c6_strategy_selection: the domination property applied
at the example image map, references and strategy list, at the
relative-one strategy. -/
theorem c6_strategy_selection_witness :
    ((Strategy.relative1, 10) : Strategy × Nat) ∈ strategyList [0, 1, 2] 10 ∧
    stratMatchCount (buildImageMap exampleData13 exampleRecords13) [0, 1, 2]
        (Strategy.relative1, 10)
      ≤ stratMatchCount (buildImageMap exampleData13 exampleRecords13) [0, 1, 2]
          (pickBestStrategy (buildImageMap exampleData13 exampleRecords13) [0, 1, 2]
            (strategyList [0, 1, 2] 10)).1 :=
  ⟨by decide,
   (c6_strategy_selection.1 (buildImageMap exampleData13 exampleRecords13) [0, 1, 2] 10).2
     (Strategy.relative1, 10) (by decide)⟩

/-! ## Claim C8: one counter per rejection, bookkeeping on acceptance -/

/-- The reason strings should_skip_image can return with a skip. -/
def validReasons : List String :=
  ["too_small", "too_narrow", "too_short", "extreme_aspect_ratio",
   "duplicate_cache", "ignored_hash", "duplicate"]

/-- The five rejection counters of the statistics record (the two cache
and in-run duplicate reasons share the duplicates field). -/
def rejCounters (s : ExtractionStats) : List Nat :=
  [s.ignored, s.duplicates, s.filtered_by_size, s.filtered_by_dimensions,
   s.filtered_by_aspect_ratio]

/-- Exactly one rejection counter was incremented by one; the other
four are unchanged. -/
def bumpedExactlyOne (old new : ExtractionStats) : Prop :=
  ∃ i, i < 5 ∧ (rejCounters new).getD i 0 = (rejCounters old).getD i 0 + 1 ∧
    ∀ j, j < 5 → j ≠ i → (rejCounters new).getD j 0 = (rejCounters old).getD j 0

theorem epubApply_ignored (s : ExtractionStats) :
    epubApplyRejection s "ignored_hash" = { s with ignored := s.ignored + 1 } := rfl

theorem epubApply_duplicate (s : ExtractionStats) :
    epubApplyRejection s "duplicate" = { s with duplicates := s.duplicates + 1 } := rfl

theorem epubApply_duplicate_cache (s : ExtractionStats) :
    epubApplyRejection s "duplicate_cache"
      = { s with duplicates := s.duplicates + 1 } := rfl

theorem epubApply_too_small (s : ExtractionStats) :
    epubApplyRejection s "too_small"
      = { s with filtered_by_size := s.filtered_by_size + 1 } := rfl

theorem epubApply_too_narrow (s : ExtractionStats) :
    epubApplyRejection s "too_narrow"
      = { s with filtered_by_dimensions := s.filtered_by_dimensions + 1 } := rfl

theorem epubApply_too_short (s : ExtractionStats) :
    epubApplyRejection s "too_short"
      = { s with filtered_by_dimensions := s.filtered_by_dimensions + 1 } := rfl

theorem epubApply_extreme (s : ExtractionStats) :
    epubApplyRejection s "extreme_aspect_ratio"
      = { s with filtered_by_aspect_ratio := s.filtered_by_aspect_ratio + 1 } := rfl

/-- C8: every skip returned by should_skip_image carries one of the
seven reason strings; the EPUB dispatch increments exactly one rejection
counter for each of them, leaving saved and missing unchanged; an
accepted image bumps saved by one and its hash is recorded in the
in-run set and, when a cache is configured, in the cache's in-memory
view; on a MOBI instance every returned skip reason is too_small and its
dispatch also increments exactly one counter. -/
theorem c8_counters :
    (∀ (cfg : SkipCfg) (cache : Option (List String)) (extr : List String)
       (len : Nat) (h : String) (m : ImageMetrics) (r : String),
      should_skip_image cfg cache extr len h m = .ok (true, r) → r ∈ validReasons) ∧
    (∀ (s : ExtractionStats) (r : String), r ∈ validReasons →
      bumpedExactlyOne s (epubApplyRejection s r) ∧
      (epubApplyRejection s r).saved = s.saved ∧
      (epubApplyRejection s r).missing = s.missing) ∧
    (∀ (cfg : SkipCfg) (hf : List Nat → String) (it : EpubItem) (rest : List EpubItem)
       (s : RunState) (stats : ExtractionStats) (miss : List String) (h : String),
      epubProcessOne cfg hf s it = .ok (.savedImg h) →
      epubLoop cfg hf (it :: rest) s stats miss
        = epubLoop cfg hf rest (saveImageHashes s h)
            { stats with saved := stats.saved + 1 } miss) ∧
    (∀ (s : RunState) (h : String),
      h ∈ (saveImageHashes s h).extracted ∧
      ∀ c, s.cache = some c →
        (saveImageHashes s h).cache = some (c ++ [h]) ∧ h ∈ c ++ [h]) ∧
    (∀ (ign : List String) (ms : Int) (dd lg : Bool) (cache : Option (List String))
       (extr : List String) (len : Nat) (h : String) (m : ImageMetrics) (r : String),
      should_skip_image (mobiMkSkipCfg ign ms dd lg) cache extr len h m = .ok (true, r) →
      r = "too_small" ∧ ∀ s, bumpedExactlyOne s (mobiApplyRejection s r)) := by
  refine ⟨?_, ?_, ?_, ?_, ?_⟩
  · intro cfg cache extr len h m r hok
    unfold should_skip_image at hok
    split at hok
    · simp_all [validReasons]
    · rcases hmw : pyGtZero cfg.min_width with e | wPos <;> rw [hmw] at hok <;>
        dsimp only at hok
      · cases hok
      · rcases hws : (if wPos = true ∧ 0 < m.width then pyLtNat m.width cfg.min_width
            else Except.ok false) with e | wSkip <;> rw [hws] at hok <;> dsimp only at hok
        · cases hok
        · cases wSkip
          · rw [if_neg (by simp)] at hok
            rcases hmh : pyGtZero cfg.min_height with e | hPos <;> rw [hmh] at hok <;>
              dsimp only at hok
            · cases hok
            · rcases hhs : (if hPos = true ∧ 0 < m.height then pyLtNat m.height cfg.min_height
                  else Except.ok false) with e | hSkip <;> rw [hhs] at hok <;>
                dsimp only at hok
              · cases hok
              · cases hSkip
                · rw [if_neg (by simp)] at hok
                  split at hok
                  · simp_all [validReasons]
                  · split at hok
                    · simp_all [validReasons]
                    · split at hok
                      · simp_all [validReasons]
                      · split at hok <;> simp_all [validReasons]
                · rw [if_pos rfl] at hok
                  simp_all [validReasons]
          · rw [if_pos rfl] at hok
            simp_all [validReasons]
  · intro s r hr
    simp only [validReasons, List.mem_cons, List.not_mem_nil, or_false] at hr
    rcases hr with rfl | rfl | rfl | rfl | rfl | rfl | rfl
    · rw [epubApply_too_small]
      exact ⟨⟨2, by omega, by simp [rejCounters], by
        intro j hj hne
        interval_cases j <;> simp_all [rejCounters]⟩, rfl, rfl⟩
    · rw [epubApply_too_narrow]
      exact ⟨⟨3, by omega, by simp [rejCounters], by
        intro j hj hne
        interval_cases j <;> simp_all [rejCounters]⟩, rfl, rfl⟩
    · rw [epubApply_too_short]
      exact ⟨⟨3, by omega, by simp [rejCounters], by
        intro j hj hne
        interval_cases j <;> simp_all [rejCounters]⟩, rfl, rfl⟩
    · rw [epubApply_extreme]
      exact ⟨⟨4, by omega, by simp [rejCounters], by
        intro j hj hne
        interval_cases j <;> simp_all [rejCounters]⟩, rfl, rfl⟩
    · rw [epubApply_duplicate_cache]
      exact ⟨⟨1, by omega, by simp [rejCounters], by
        intro j hj hne
        interval_cases j <;> simp_all [rejCounters]⟩, rfl, rfl⟩
    · rw [epubApply_ignored]
      exact ⟨⟨0, by omega, by simp [rejCounters], by
        intro j hj hne
        interval_cases j <;> simp_all [rejCounters]⟩, rfl, rfl⟩
    · rw [epubApply_duplicate]
      exact ⟨⟨1, by omega, by simp [rejCounters], by
        intro j hj hne
        interval_cases j <;> simp_all [rejCounters]⟩, rfl, rfl⟩
  · intro cfg hf it rest s stats miss h hstep
    simp only [epubLoop, hstep]
  · intro s h
    refine ⟨by simp [saveImageHashes], ?_⟩
    intro c hc
    simp [saveImageHashes, hc]
  · intro ign ms dd lg cache extr len h m r hok
    by_cases hfloor : 0 < ms ∧ (len : Int) < ms
    · rw [should_skip_size_floor _ _ _ _ _ _ (by simpa [mobiMkSkipCfg] using hfloor.1)
        (by simpa [mobiMkSkipCfg] using hfloor.2)] at hok
      have hr : r = "too_small" := by
        injection hok with hp
        exact (congrArg Prod.snd hp).symm
      subst hr
      refine ⟨rfl, ?_⟩
      intro s
      exact ⟨2, by omega, by simp [rejCounters, mobiApplyRejection], by
        intro j hj hne
        interval_cases j <;> simp_all [rejCounters, mobiApplyRejection]⟩
    · rw [mobi_should_skip_typeError ign ms dd lg cache extr len h m hfloor] at hok
      cases hok

/-- A permissive EPUB-style configuration (no floors, no ceiling) used
by witnesses. -/
def epubOpenCfg : SkipCfg :=
  { ignored_hashes := []
    min_image_size := 0
    min_width := .int 0
    min_height := .int 0
    max_aspect_ratio := 0
    enable_deduplication := true }

/-- A concrete accepted item used by witnesses. -/
def acceptedItem : EpubItem := { path := "img/p1.png", readData := some [1, 2, 3], saveFails := false }

/-- Witness for c8_counters: each conjunct applied at concrete inputs
with its hypotheses discharged by evaluation. -/
theorem c8_counters_witness :
    ("too_small" ∈ validReasons) ∧
    (bumpedExactlyOne ExtractionStats.init
        (epubApplyRejection ExtractionStats.init "too_small") ∧
      (epubApplyRejection ExtractionStats.init "too_small").saved
        = ExtractionStats.init.saved ∧
      (epubApplyRejection ExtractionStats.init "too_small").missing
        = ExtractionStats.init.missing) ∧
    (epubLoop epubOpenCfg (fun _ => "h1") (acceptedItem :: []) ⟨[], some []⟩
        ExtractionStats.init []
      = epubLoop epubOpenCfg (fun _ => "h1") [] (saveImageHashes ⟨[], some []⟩ "h1")
          { ExtractionStats.init with saved := ExtractionStats.init.saved + 1 } []) ∧
    ("h1" ∈ (saveImageHashes ⟨[], some []⟩ "h1").extracted) ∧
    ("too_small" = "too_small" ∧
      ∀ s, bumpedExactlyOne s (mobiApplyRejection s "too_small")) :=
  ⟨c8_counters.1 c3WitnessCfg none [] 500 "deadbeef"
     { size_bytes := 500, width := 0, height := 0,
       extension := ".jpg", mime_type := "image/jpeg" } "too_small" (by decide),
   c8_counters.2.1 ExtractionStats.init "too_small" (by decide),
   c8_counters.2.2.1 epubOpenCfg (fun _ => "h1") acceptedItem [] ⟨[], some []⟩
     ExtractionStats.init [] "h1" (by decide),
   (c8_counters.2.2.2.1 ⟨[], some []⟩ "h1").1,
   c8_counters.2.2.2.2 [] 1000 true false none [] 8 "h" (parse_image_metrics jpegBlock)
     "too_small" (by decide)⟩

/-! ## Claim C1: per-image failure isolation -/

/-- The EPUB per-image loop splits over list append. -/
theorem epubLoop_append (cfg : SkipCfg) (hf : List Nat → String) :
    ∀ (l1 l2 : List EpubItem) (s : RunState) (stats : ExtractionStats)
      (miss : List String),
      epubLoop cfg hf (l1 ++ l2) s stats miss
        = epubLoop cfg hf l2 (epubLoop cfg hf l1 s stats miss).2.1
            (epubLoop cfg hf l1 s stats miss).1
            (epubLoop cfg hf l1 s stats miss).2.2 := by
  intro l1
  induction l1 with
  | nil => intro l2 s stats miss; rfl
  | cons it rest ih =>
    intro l2 s stats miss
    simp only [List.cons_append, epubLoop]
    cases hP : epubProcessOne cfg hf s it with
    | error e => exact ih l2 s stats (miss ++ [it.path])
    | ok outcome =>
      cases outcome with
      | skipped r => exact ih l2 s (epubApplyRejection stats r) miss
      | savedImg h =>
        exact ih l2 (saveImageHashes s h) { stats with saved := stats.saved + 1 } miss

/-- The missing-path accumulator of the EPUB loop only grows. -/
theorem epubLoop_miss_mono (cfg : SkipCfg) (hf : List Nat → String) :
    ∀ (items : List EpubItem) (s : RunState) (stats : ExtractionStats)
      (miss : List String),
      ∃ add, (epubLoop cfg hf items s stats miss).2.2 = miss ++ add := by
  intro items
  induction items with
  | nil => intro s stats miss; exact ⟨[], by simp [epubLoop]⟩
  | cons it rest ih =>
    intro s stats miss
    simp only [epubLoop]
    cases hP : epubProcessOne cfg hf s it with
    | error e =>
      obtain ⟨add, hadd⟩ := ih s stats (miss ++ [it.path])
      exact ⟨[it.path] ++ add, by rw [hadd]; simp⟩
    | ok outcome =>
      cases outcome with
      | skipped r => exact ih s (epubApplyRejection stats r) miss
      | savedImg h => exact ih (saveImageHashes s h) { stats with saved := stats.saved + 1 } miss

set_option maxRecDepth 8000 in
/-- C1 counterexample: a well-formed minimal MOBI file with one detected
image record; during its per-image processing the filter raises (the
min_height TypeError of the constructor bug is one such internal error)
and extract_images propagates it as ExtractionError instead of counting
the image as missing and returning statistics. -/
theorem c1_counterexample :
    mobiOrderedImages (fun _ => []) mobiSmallFile (readPdbRecords mobiSmallFile)
        = [(1, jpegBlock)] ∧
    mobiExtractImages (mobiMkSkipCfg [] 0 true false) (fun _ => "h") (fun _ => [])
        RunState.init mobiSmallFile false
      = .error (.extractionError .typeError) := by
  refine ⟨by decide, by decide⟩

set_option maxRecDepth 8000 in
/-- C1 amended: for EPUB books the claim holds — one image's failure is
caught per-image, the offending path joins the missing list (counted by
the missing statistic, which equals the number of distinct missing
paths), the run state and counters are untouched by the failing image
and the remaining images are processed; for MOBI books it does not hold:
extract_images has no per-image handler, and a per-image failure aborts
the book with ExtractionError (see the concrete file, where the failure
is the TypeError every image filtering raises). -/
theorem c1_failure_isolation :
    (∀ (cfg : SkipCfg) (hf : List Nat → String) (items1 items2 : List EpubItem)
       (bad : EpubItem) (s : RunState) (stats : ExtractionStats) (miss : List String),
      bad.readData = none →
      epubLoop cfg hf (items1 ++ bad :: items2) s stats miss
        = epubLoop cfg hf items2 (epubLoop cfg hf items1 s stats miss).2.1
            (epubLoop cfg hf items1 s stats miss).1
            ((epubLoop cfg hf items1 s stats miss).2.2 ++ [bad.path]) ∧
      bad.path ∈ (epubLoop cfg hf (items1 ++ bad :: items2) s stats miss).2.2) ∧
    (∀ (cfg : SkipCfg) (hf : List Nat → String) (items : List EpubItem)
       (miss0 : List String) (s0 : RunState),
      (epubExtractLoopResult cfg hf items miss0 s0).1.missing
        = (distinctList (epubLoop cfg hf items s0 ExtractionStats.init miss0).2.2).length) ∧
    mobiExtractImages (mobiMkSkipCfg [] 0 true false) (fun _ => "h") (fun _ => [])
        RunState.init mobiSmallFile false
      = .error (.extractionError .typeError) := by
  refine ⟨?_, ?_, by decide⟩
  · intro cfg hf items1 items2 bad s stats miss hbad
    have hstep : ∀ (s2 : RunState) (st2 : ExtractionStats) (m2 : List String),
        epubLoop cfg hf (bad :: items2) s2 st2 m2
          = epubLoop cfg hf items2 s2 st2 (m2 ++ [bad.path]) := by
      intro s2 st2 m2
      simp only [epubLoop]
      have hP : epubProcessOne cfg hf s2 bad = .error .ioError := by
        unfold epubProcessOne
        rw [hbad]
      rw [hP]
    have hsplit := epubLoop_append cfg hf items1 (bad :: items2) s stats miss
    rw [hstep] at hsplit
    refine ⟨hsplit, ?_⟩
    rw [hsplit]
    obtain ⟨add, hadd⟩ := epubLoop_miss_mono cfg hf items2
      (epubLoop cfg hf items1 s stats miss).2.1
      (epubLoop cfg hf items1 s stats miss).1
      ((epubLoop cfg hf items1 s stats miss).2.2 ++ [bad.path])
    rw [hadd]
    simp
  · intro cfg hf items miss0 s0
    rfl

/-- A failing item (its archive read raises) used by the C1 witness. -/
def failingItem : EpubItem := { path := "img/missing.png", readData := none, saveFails := false }

/-- Witness for c1_failure_isolation: one accepted item followed by a
failing item; the loop decomposes around the failure and the failing
path is recorded in the missing list. -/
theorem c1_failure_isolation_witness :
    (epubLoop epubOpenCfg (fun _ => "h1") ([acceptedItem] ++ failingItem :: [])
        RunState.init ExtractionStats.init []
      = epubLoop epubOpenCfg (fun _ => "h1") []
          (epubLoop epubOpenCfg (fun _ => "h1") [acceptedItem] RunState.init
            ExtractionStats.init []).2.1
          (epubLoop epubOpenCfg (fun _ => "h1") [acceptedItem] RunState.init
            ExtractionStats.init []).1
          ((epubLoop epubOpenCfg (fun _ => "h1") [acceptedItem] RunState.init
            ExtractionStats.init []).2.2 ++ [failingItem.path]) ∧
      failingItem.path
        ∈ (epubLoop epubOpenCfg (fun _ => "h1") ([acceptedItem] ++ failingItem :: [])
            RunState.init ExtractionStats.init []).2.2) :=
  c1_failure_isolation.1 epubOpenCfg (fun _ => "h1") [acceptedItem] [] failingItem
    RunState.init ExtractionStats.init [] rfl

/-! ## Claim C10: the MOBI constructor bug -/

set_option maxRecDepth 8000 in
/-- C10 counterexample: with a positive size floor (min_image_size 1000)
and a MOBI file whose single detected image record is 8 bytes, every
image is rejected at the size floor before the min_height comparison is
reached, so extract_images returns statistics instead of raising — the
claim's final clause (raises for every MOBI file with at least one
detected image record) is too broad. -/
theorem c10_counterexample :
    (mobiOrderedImages (fun _ => []) mobiSmallFile (readPdbRecords mobiSmallFile)).length
        = 1 ∧
    mobiExtractImages (mobiMkSkipCfg [] 1000 true false) (fun _ => "h") (fun _ => [])
        RunState.init mobiSmallFile false
      = .ok { ExtractionStats.init with filtered_by_size := 1 } := by
  refine ⟨by decide, by decide⟩

/-- The MOBI per-image loop raises TypeError as soon as any image in the
list clears the size floor. -/
theorem mobiLoop_error (ign : List String) (ms : Int) (dd lg : Bool)
    (hf : List Nat → String) :
    ∀ (items : List (Nat × List Nat)) (s : RunState) (stats : ExtractionStats),
      (∃ p ∈ items, ¬(0 < ms ∧ ((p.2.length : Int) < ms))) →
      mobiLoop (mobiMkSkipCfg ign ms dd lg) hf items s stats = .error .typeError := by
  intro items
  induction items with
  | nil =>
    intro s stats hex
    simp at hex
  | cons p rest ih =>
    intro s stats hex
    by_cases hp : ¬(0 < ms ∧ ((p.2.length : Int) < ms))
    · simp only [mobiLoop]
      rw [mobi_should_skip_typeError ign ms dd lg s.cache s.extracted p.2.length
        (hf p.2) (parse_image_metrics p.2) hp]
    · push_neg at hp
      have hskip : should_skip_image (mobiMkSkipCfg ign ms dd lg) s.cache s.extracted
          p.2.length (hf p.2) (parse_image_metrics p.2) = .ok (true, "too_small") :=
        should_skip_size_floor _ _ _ _ _ _ (by simpa [mobiMkSkipCfg] using hp.1)
          (by simpa [mobiMkSkipCfg] using hp.2)
      simp only [mobiLoop]
      rw [hskip]
      apply ih
      obtain ⟨q, hq, hqf⟩ := hex
      rcases List.mem_cons.mp hq with rfl | hqrest
      · exact absurd hp (by tauto)
      · exact ⟨q, hqrest, hqf⟩

/-- C10 amended: the constructor forwards enable_deduplication into
min_width and logger into min_height, so min_height is None or a Logger;
for every image that clears the size floor should_skip_image raises
TypeError when comparing min_height with 0 (the bool-valued width floor
never fires), and extract_images raises ExtractionError for every MOBI
file containing at least one detected image record that clears the size
floor — in particular for every such file under the default
min_image_size of 0, but not when a positive floor rejects every image
first (see the counterexample). -/
theorem c10_constructor_bug :
    (∀ (ign : List String) (ms : Int) (dd lg : Bool) (cache : Option (List String))
       (extr : List String) (len : Nat) (h : String) (m : ImageMetrics),
      ¬(0 < ms ∧ (len : Int) < ms) →
      should_skip_image (mobiMkSkipCfg ign ms dd lg) cache extr len h m
        = .error .typeError) ∧
    (∀ (ign : List String) (ms : Int) (dd lg : Bool) (hf : List Nat → String)
       (hofn : List Nat → List Nat) (s0 : RunState) (data : List Nat),
      mobiMagicOk data = true →
      readPdbRecords data ≠ [] →
      (∃ p ∈ mobiOrderedImages hofn data (readPdbRecords data),
        ¬(0 < ms ∧ ((p.2.length : Int) < ms))) →
      mobiExtractImages (mobiMkSkipCfg ign ms dd lg) hf hofn s0 data false
        = .error (.extractionError .typeError)) := by
  constructor
  · intro ign ms dd lg cache extr len h m hfloor
    exact mobi_should_skip_typeError ign ms dd lg cache extr len h m hfloor
  · intro ign ms dd lg hf hofn s0 data hmagic hrec hex
    unfold mobiExtractImages
    rw [if_neg (by simp [hmagic])]
    simp only
    rw [if_neg (by simpa [List.isEmpty_iff] using hrec)]
    simp only [Bool.false_eq_true, if_false]
    rw [mobiLoop_error ign ms dd lg hf _ s0 ExtractionStats.init hex]

set_option maxRecDepth 8000 in
/-- Witness for c10_constructor_bug: under the default configuration
(size floor 0) the TypeError fires on the 8-byte JPEG record, and the
minimal MOBI file aborts with ExtractionError. -/
theorem c10_constructor_bug_witness :
    should_skip_image (mobiMkSkipCfg [] 0 true false) none [] 8 "h"
        (parse_image_metrics jpegBlock)
      = .error .typeError ∧
    mobiExtractImages (mobiMkSkipCfg [] 0 true false) (fun _ => "h") (fun _ => [])
        RunState.init mobiSmallFile false
      = .error (.extractionError .typeError) :=
  ⟨c10_constructor_bug.1 [] 0 true false none [] 8 "h" (parse_image_metrics jpegBlock)
     (by decide),
   c10_constructor_bug.2 [] 0 true false (fun _ => "h") (fun _ => []) RunState.init
     mobiSmallFile (by decide) (by decide)
     ⟨(1, jpegBlock), by decide, by decide⟩⟩

end EbookIE
